import Mathlib

/-!
Verification of the conversation/transport/tool-dispatch engine of the
`llm-utilities` repository (files `src/base.py` and `src/anthropic_bots.py`).

The Python code is shallowly embedded: mutable `ConversationNode` objects are
modelled in two complementary ways, matching which observations a claim makes:

* a value-level ancestor-chain view (`ConversationNode` below) for the methods
  that only walk `parent` pointers (`build_messages`, `add_reply` as used by
  `Bot._cvsn_respond`), and
* a pointer-level store view (`NodeData` / `Store`), where nodes live at list
  indices and `parent` / `replies` hold indices, for claims about object
  identity and in-place reinitialisation (`add_reply` on the sentinel) and
  about `from_dict` reconstructing parent back-references.

Anthropic message content is either a plain string or a list of typed blocks
(`{'type': 'text'|'tool_use'|'tool_result', ...}`); this is the `Content` /
`Segment` pair below.  Python exceptions are modelled with `Except`.
-/

/-- Plain data values (tool outputs, attribute values): the subset of Python
values the engine actually stores in tool results and node attributes. -/
inductive PVal where
  | s (v : String)
  | n (v : Int)
  | b (v : Bool)
  | nil
deriving DecidableEq, Repr

/-- One element of an Anthropic content list: a typed block.  `text` blocks
carry a string, `tool_use` blocks are the request dicts built by
`AnthropicToolHandler.generate_request_schema` (`{'type','id','name','input'}`),
`tool_result` blocks are built by `generate_response_schema`
(`{'type','tool_use_id','content'}`). -/
inductive Segment where
  | text (t : String)
  | toolUse (id name : String) (input : List (String × String))
  | toolResult (tool_use_id : String) (content : PVal)
deriving DecidableEq, Repr

/-- The `['type']` field of a content block. -/
def Segment.type : Segment → String
  | .text _ => "text"
  | .toolUse _ _ _ => "tool_use"
  | .toolResult _ _ => "tool_result"

/-- `ConversationNode.content`: either a plain Python `str` or a list of
content blocks (`isinstance(content, str)` vs `isinstance(content, list)`). -/
inductive Content where
  | str (s : String)
  | list (l : List Segment)
deriving DecidableEq, Repr

/-- Values of the open extra attributes that transports attach to nodes via
`ConversationNode.__init__(**kwargs)` (e.g. `requests` / `results` lists from
`AnthropicMailbox._process_response`).  `callable` marks a function-valued
attribute, which `_to_dict_self` filters out of serialisation. -/
inductive EVal where
  | str (v : String)
  | num (v : Int)
  | segs (v : List Segment)
  | dict (v : List (String × EVal))
  | callable (name : String)

def EVal.isCallable : EVal → Bool
  | .callable _ => true
  | _ => false

/-- Python `dict.get(key)` on an `EVal.dict`; `none` for a missing key or a
non-dict value. -/
def EVal.dictGet : EVal → String → Option EVal
  | .dict kvs, k => kvs.lookup k
  | _, _ => none

/-- Python truthiness of an optional attribute value, as used by
`extra_data.get('requests')` in `Bot._respond_auto`. -/
def truthy : Option EVal → Bool
  | none => false
  | some (.str s) => !s.isEmpty
  | some (.num n) => n != 0
  | some (.segs l) => !l.isEmpty
  | some (.dict d) => !d.isEmpty
  | some (.callable _) => true

/-! ## ConversationNode: ancestor-chain view

`ConversationNode.build_messages` only reads `role`, `content` and walks
`parent`, so for those claims a node is represented by its chain of ancestors.
`__init__` stores the `**kwargs` extras, then `role`, `content`, and resets
`replies = []`, `parent = None`. -/

inductive ConversationNode where
  | mk (role : String) (content : Content) (extras : List (String × EVal))
      (parent : Option ConversationNode)

def ConversationNode.role : ConversationNode → String
  | .mk r _ _ _ => r

def ConversationNode.content : ConversationNode → Content
  | .mk _ c _ _ => c

def ConversationNode.extras : ConversationNode → List (String × EVal)
  | .mk _ _ e _ => e

def ConversationNode.parent : ConversationNode → Option ConversationNode
  | .mk _ _ _ p => p

/-- `ConversationNode.create_empty()`: the sentinel `role='empty', content=''`. -/
def ConversationNode.create_empty : ConversationNode :=
  .mk "empty" (.str "") [] none

/-- `ConversationNode.is_empty`: attribute-based sentinel test
(`self.role == 'empty' and self.content == ''`). -/
def ConversationNode.is_empty (n : ConversationNode) : Bool :=
  n.role == "empty" && n.content == Content.str ""

/-- `ConversationNode.add_reply(**kwargs)`: on the sentinel, `self.__init__`
re-runs in place (which also resets `parent` to `None`); otherwise a fresh
child node is created with `parent = self`. -/
def ConversationNode.add_reply (self : ConversationNode) (content : Content)
    (role : String) (extras : List (String × EVal)) : ConversationNode :=
  if self.is_empty then
    .mk role content extras none
  else
    .mk role content extras (some self)

/-- The `while node:` loop body of `build_messages`: the `{role, content}`
entries of the node and all its ancestors, root first. -/
def ConversationNode.path_entries : ConversationNode → List (String × Content)
  | .mk r c _ p =>
    (match p with
     | none => []
     | some q => q.path_entries) ++ [(r, c)]

/-- `ConversationNode.build_messages`: empty for the sentinel, otherwise the
root-first `{role, content}` path. -/
def ConversationNode.build_messages (n : ConversationNode) :
    List (String × Content) :=
  if n.is_empty then [] else n.path_entries

/-- Number of ancestors of a node (its depth in the tree; the root has 0). -/
def ConversationNode.depth : ConversationNode → Nat
  | .mk _ _ _ none => 0
  | .mk _ _ _ (some p) => p.depth + 1

/-- A sequence of `add_reply` calls, each on the current node, starting from
the sentinel returned by `create_empty` — the tree-building discipline of
`Bot._cvsn_respond`.  Each turn is a `(role, content)` pair. -/
def buildConversation (turns : List (String × Content)) : ConversationNode :=
  turns.foldl (fun n t => n.add_reply t.2 t.1 []) ConversationNode.create_empty

/-! ## C1: linearize on the current node -/

lemma is_empty_mk (r : String) (c : Content) (e : List (String × EVal))
    (p : Option ConversationNode) :
    (ConversationNode.mk r c e p).is_empty = (r == "empty" && c == Content.str "") :=
  rfl

lemma add_reply_not_empty (n : ConversationNode) (c : Content) (r : String)
    (h : ¬(r = "empty" ∧ c = Content.str "")) :
    (n.add_reply c r []).is_empty = false := by
  have hb : (r == "empty" && c == Content.str "") = false := by
    by_contra hcon
    rw [Bool.not_eq_false, Bool.and_eq_true, beq_iff_eq, beq_iff_eq] at hcon
    exact h hcon
  unfold ConversationNode.add_reply
  by_cases he : n.is_empty = true <;> simp [he, is_empty_mk, hb]

lemma add_reply_eq_of_not_empty (n : ConversationNode) (c : Content) (r : String)
    (ex : List (String × EVal)) (hn : n.is_empty = false) :
    n.add_reply c r ex = .mk r c ex (some n) := by
  unfold ConversationNode.add_reply
  simp [hn]

lemma add_reply_eq_of_empty (n : ConversationNode) (c : Content) (r : String)
    (ex : List (String × EVal)) (hn : n.is_empty = true) :
    n.add_reply c r ex = .mk r c ex none := by
  unfold ConversationNode.add_reply
  simp [hn]

lemma path_entries_mk (r : String) (c : Content) (e : List (String × EVal))
    (n : ConversationNode) :
    (ConversationNode.mk r c e (some n)).path_entries = n.path_entries ++ [(r, c)] := by
  rfl

lemma path_entries_def (r : String) (c : Content) (e : List (String × EVal))
    (p : Option ConversationNode) :
    (ConversationNode.mk r c e p).path_entries
      = (match p with
         | none => []
         | some q => q.path_entries) ++ [(r, c)] := by
  cases p <;> rfl

lemma depth_mk (r : String) (c : Content) (e : List (String × EVal))
    (n : ConversationNode) :
    (ConversationNode.mk r c e (some n)).depth = n.depth + 1 :=
  rfl

/-- Folding `add_reply` over real turns starting from a non-sentinel node
extends the root-to-current path by exactly those turns. -/
lemma foldl_add_reply_spec :
    ∀ (ts : List (String × Content)) (n : ConversationNode),
      n.is_empty = false →
      (∀ t ∈ ts, ¬(t.1 = "empty" ∧ t.2 = Content.str "")) →
      ((ts.foldl (fun x t => x.add_reply t.2 t.1 []) n).is_empty = false
       ∧ (ts.foldl (fun x t => x.add_reply t.2 t.1 []) n).path_entries
           = n.path_entries ++ ts
       ∧ (ts.foldl (fun x t => x.add_reply t.2 t.1 []) n).depth = n.depth + ts.length)
  | [], n, hn, _ => ⟨hn, by simp, by simp⟩
  | t :: ts, n, hn, hts => by
    have hstep : n.add_reply t.2 t.1 [] = .mk t.1 t.2 [] (some n) :=
      add_reply_eq_of_not_empty n t.2 t.1 [] hn
    have hne : (ConversationNode.mk t.1 t.2 [] (some n)).is_empty = false := by
      rw [← hstep]
      exact add_reply_not_empty n t.2 t.1 (hts t (List.mem_cons_self t ts))
    have ih := foldl_add_reply_spec ts (.mk t.1 t.2 [] (some n)) hne
      (fun u hu => hts u (List.mem_cons_of_mem t hu))
    refine ⟨?_, ?_, ?_⟩
    · simpa [hstep] using ih.1
    · have h2 := ih.2.1
      rw [path_entries_mk] at h2
      simp only [List.foldl_cons, hstep, h2, List.append_assoc]
      rfl
    · have h3 := ih.2.2
      rw [depth_mk] at h3
      simp only [List.foldl_cons, hstep, h3, List.length_cons]
      omega

/-- **C1 — counterexample.**  The claim quantifies over *every* sequence of
`addReply` calls, but a call passing the sentinel attribute pair
(`role='empty'`, `content=''`) mid-tree produces a node on which
`build_messages` returns `[]` rather than the root-first path of length
depth + 1. -/
theorem c1_claim_counterexample :
    (buildConversation [("user", Content.str "hello"),
        ("empty", Content.str "")]).build_messages
      ≠ [("user", Content.str "hello"), ("empty", Content.str "")] := by
  decide

/-- **C1 (amended).**  For every conversation built by a sequence of `addReply`
calls starting from the empty sentinel, *none of which passes the sentinel
attribute pair `role='empty', content=''`*, `build_messages` on the current
node returns exactly the root-first sequence of `{role, content}` entries of
the path from the root, with length equal to the node's depth + 1; and
`build_messages` on the sentinel empty root returns the empty sequence. -/
lemma buildConversation_cons_spec (t : String × Content) (ts : List (String × Content))
    (h : ∀ u ∈ t :: ts, ¬(u.1 = "empty" ∧ u.2 = Content.str "")) :
    (buildConversation (t :: ts)).is_empty = false
    ∧ (buildConversation (t :: ts)).path_entries = t :: ts
    ∧ (buildConversation (t :: ts)).depth = ts.length := by
  have hstep : ConversationNode.create_empty.add_reply t.2 t.1 []
      = .mk t.1 t.2 [] none :=
    add_reply_eq_of_empty _ t.2 t.1 [] rfl
  have hne : (ConversationNode.mk t.1 t.2 [] none).is_empty = false := by
    rw [← hstep]
    exact add_reply_not_empty _ t.2 t.1 (h t (List.mem_cons_self t ts))
  have spec := foldl_add_reply_spec ts (.mk t.1 t.2 [] none) hne
    (fun u hu => h u (List.mem_cons_of_mem t hu))
  have hbc : buildConversation (t :: ts)
      = ts.foldl (fun x u => x.add_reply u.2 u.1 []) (.mk t.1 t.2 [] none) := by
    unfold buildConversation
    rw [List.foldl_cons, hstep]
  have hpath : (ConversationNode.mk t.1 t.2 [] none).path_entries = [t] := by
    show [] ++ [(t.1, t.2)] = [t]
    simp
  refine ⟨by rw [hbc]; exact spec.1, ?_, ?_⟩
  · rw [hbc, spec.2.1, hpath]
    rfl
  · rw [hbc, spec.2.2]
    simp [ConversationNode.depth]

theorem c1_linearize_is_root_path (turns : List (String × Content))
    (h : ∀ t ∈ turns, ¬(t.1 = "empty" ∧ t.2 = Content.str "")) :
    (buildConversation turns).build_messages = turns
    ∧ (turns ≠ [] →
        (buildConversation turns).build_messages.length
          = (buildConversation turns).depth + 1)
    ∧ ConversationNode.create_empty.build_messages = [] := by
  cases turns with
  | nil => exact ⟨rfl, fun hne => absurd rfl hne, rfl⟩
  | cons t ts =>
    have spec := buildConversation_cons_spec t ts h
    have hmsg : (buildConversation (t :: ts)).build_messages = t :: ts := by
      unfold ConversationNode.build_messages
      rw [spec.1]
      simpa using spec.2.1
    refine ⟨hmsg, fun _ => ?_, rfl⟩
    rw [hmsg, spec.2.2]
    simp

/-- Witness for C1 (amended) at a concrete two-turn conversation. -/
theorem c1_linearize_is_root_path_witness :
    (∀ t ∈ [("user", Content.str "hello"), ("assistant", Content.str "hi")],
        ¬(t.1 = "empty" ∧ t.2 = Content.str ""))
    ∧ ((buildConversation [("user", Content.str "hello"),
          ("assistant", Content.str "hi")]).build_messages
        = [("user", Content.str "hello"), ("assistant", Content.str "hi")]
      ∧ ([("user", Content.str "hello"), ("assistant", Content.str "hi")]
            ≠ ([] : List (String × Content)) →
          (buildConversation [("user", Content.str "hello"),
              ("assistant", Content.str "hi")]).build_messages.length
            = (buildConversation [("user", Content.str "hello"),
                ("assistant", Content.str "hi")]).depth + 1)
      ∧ ConversationNode.create_empty.build_messages = []) :=
  ⟨by decide, c1_linearize_is_root_path _ (by decide)⟩

/-! ## Pointer-level store view of ConversationNode

Nodes live at indices of a list; `parent` and `replies` hold indices.  This
view makes object identity observable, so it is the right level to state the
in-place reinitialisation performed by `add_reply` on the sentinel and the
parent reconstruction performed by `from_dict`. -/

structure NodeData where
  role : String
  content : Content
  extras : List (String × EVal)
  parent : Option Nat
  replies : List Nat

/-- `ConversationNode.is_empty` read off a stored node: purely attribute-based. -/
def NodeData.is_empty_attrs (nd : NodeData) : Bool :=
  nd.role == "empty" && nd.content == Content.str ""

abbrev Store := List NodeData

/-- `ConversationNode.add_reply` at pointer level.  On a node whose attributes
match the sentinel, `self.__init__(**kwargs)` re-runs on the *same* object:
the node at index `i` is overwritten (its `parent` and `replies` are reset by
`__init__`) and `i` itself is returned; no new node is allocated.  Otherwise a
child node is allocated at the end of the store, its `parent` set to `i`, and
its index appended to `i`'s reply list. -/
def storeAddReply (s : Store) (i : Nat) (content : Content) (role : String)
    (extras : List (String × EVal)) : Store × Nat :=
  match s.get? i with
  | none => (s, i)
  | some nd =>
    if nd.is_empty_attrs then
      (s.set i ⟨role, content, extras, none, []⟩, i)
    else
      let j := s.length
      ((s.set i ⟨nd.role, nd.content, nd.extras, nd.parent, nd.replies ++ [j]⟩)
          ++ [⟨role, content, extras, some i, []⟩], j)

/-- The `while node:` ancestor walk of `build_messages`, fuelled by the store
size (parent chains of well-formed stores are shorter than the store). -/
def storePathEntries (s : Store) : Nat → Nat → List (String × Content)
  | 0, _ => []
  | fuel + 1, i =>
    match s.get? i with
    | none => []
    | some nd =>
      (match nd.parent with
       | none => []
       | some p => storePathEntries s fuel p) ++ [(nd.role, nd.content)]

/-- `ConversationNode.build_messages` at pointer level: the sentinel test is
performed only on the starting node, before the ancestor walk. -/
def storeBuildMessages (s : Store) (i : Nat) : List (String × Content) :=
  match s.get? i with
  | none => []
  | some nd => if nd.is_empty_attrs then [] else storePathEntries s s.length i

/-! ## C10: sentinel status is attribute-based -/

/-- **C10.**  Any stored node whose `role` is `"empty"` and whose `content` is
`""` is treated as the sentinel, regardless of tree position: `add_reply` on it
re-runs `__init__` in place — the same index is returned, the store length is
unchanged (no child allocated anywhere), and the node is overwritten with the
new attributes (with `parent` and `replies` reset by `__init__`) — and
`build_messages` on it returns the empty sequence even though it has a parent. -/
theorem c10_sentinel_is_attribute_based (s : Store) (i : Nat) (nd : NodeData)
    (hget : s.get? i = some nd) (hrole : nd.role = "empty")
    (hcontent : nd.content = Content.str "") (_hparent : nd.parent.isSome = true)
    (content : Content) (role : String) (extras : List (String × EVal)) :
    (storeAddReply s i content role extras).2 = i
    ∧ (storeAddReply s i content role extras).1.length = s.length
    ∧ (storeAddReply s i content role extras).1
        = s.set i ⟨role, content, extras, none, []⟩
    ∧ storeBuildMessages s i = [] := by
  have hemp : nd.is_empty_attrs = true := by
    unfold NodeData.is_empty_attrs
    rw [hrole, hcontent]
    rfl
  have hadd : storeAddReply s i content role extras
      = (s.set i ⟨role, content, extras, none, []⟩, i) := by
    unfold storeAddReply
    rw [hget]
    simp [hemp]
  have hbm : storeBuildMessages s i = [] := by
    unfold storeBuildMessages
    rw [hget]
    simp [hemp]
  exact ⟨by rw [hadd], by rw [hadd]; exact List.length_set s i _, by rw [hadd], hbm⟩

/-- Witness for C10: a two-node store whose second node carries the sentinel
attributes *and* a parent pointer. -/
theorem c10_sentinel_is_attribute_based_witness :
    ([⟨"user", Content.str "hi", [], none, [1]⟩,
      ⟨"empty", Content.str "", [], some 0, []⟩] : Store).get? 1
        = some ⟨"empty", Content.str "", [], some 0, []⟩
    ∧ ((storeAddReply [⟨"user", Content.str "hi", [], none, [1]⟩,
          ⟨"empty", Content.str "", [], some 0, []⟩] 1
          (Content.str "first") "user" []).2 = 1
      ∧ (storeAddReply [⟨"user", Content.str "hi", [], none, [1]⟩,
          ⟨"empty", Content.str "", [], some 0, []⟩] 1
          (Content.str "first") "user" []).1.length
          = ([⟨"user", Content.str "hi", [], none, [1]⟩,
              ⟨"empty", Content.str "", [], some 0, []⟩] : Store).length
      ∧ (storeAddReply [⟨"user", Content.str "hi", [], none, [1]⟩,
          ⟨"empty", Content.str "", [], some 0, []⟩] 1
          (Content.str "first") "user" []).1
          = ([⟨"user", Content.str "hi", [], none, [1]⟩,
              ⟨"empty", Content.str "", [], some 0, []⟩] : Store).set 1
              ⟨"user", Content.str "first", [], none, []⟩
      ∧ storeBuildMessages [⟨"user", Content.str "hi", [], none, [1]⟩,
          ⟨"empty", Content.str "", [], some 0, []⟩] 1 = []) :=
  ⟨rfl, c10_sentinel_is_attribute_based
    [⟨"user", Content.str "hi", [], none, [1]⟩,
     ⟨"empty", Content.str "", [], some 0, []⟩] 1
    ⟨"empty", Content.str "", [], some 0, []⟩ rfl rfl rfl rfl
    (Content.str "first") "user" []⟩

/-! ## C2: splicing pending tool Requests/Results into the outbound payload -/

/-- The string-to-block-list coercion performed before splicing:
`[{'type': 'text', 'text': content}]` when the content is a plain string. -/
def Content.asBlocks : Content → List Segment
  | .str s => [.text s]
  | .list l => l

/-- The pending `requests` / `results` buffers of a `ToolHandler`. -/
structure PendingBuffers where
  requests : List Segment
  results : List Segment
deriving DecidableEq, Repr

/-- Lines 98–106 of `anthropic_bots.py`: if there are pending tool requests,
wrap the *parent* node's content as a block list and extend it with the
requests; if there are pending tool results, wrap the current node's content
and prepend the results to it.  A `None` parent would raise `AttributeError`
in Python before any send; that branch leaves the node unchanged here and is
excluded by hypothesis in the theorems below. -/
def splice_pending (conv : ConversationNode) (requests results : List Segment) :
    ConversationNode :=
  let conv1 :=
    if requests.isEmpty then conv
    else
      match conv with
      | .mk r c ex p =>
        match p with
        | none => .mk r c ex none
        | some q =>
          .mk r c ex
            (some (.mk q.role (.list (q.content.asBlocks ++ requests))
              q.extras q.parent))
  if results.isEmpty then conv1
  else
    .mk conv1.role (.list (results ++ conv1.content.asBlocks)) conv1.extras
      conv1.parent

/-- `AnthropicMailbox._send_message_implementation` up to the network call:
splice the pending requests/results into the conversation nodes, clear the
handler's pending buffers (`self.tool_handler.clear()`, lines 107–108), and
build the outbound `messages` payload via `build_messages` (line 115).  The
retry loop afterwards reuses this single payload unchanged, so what is sent is
exactly the first component. -/
def send_prepare (conv : ConversationNode) (th : PendingBuffers) :
    List (String × Content) × ConversationNode × PendingBuffers :=
  let conv2 := splice_pending conv th.requests th.results
  (conv2.build_messages, conv2, ⟨[], []⟩)

/-- **C2.**  With pending Requests and Results present, the outbound payload
ends with the prior assistant turn (second-to-last message) whose content is
its old content (as blocks) followed by the Requests, and with the current
turn (last message) whose content is the Results followed by its old content;
the handler's pending buffers are cleared before the network send; and a
subsequent payload build from cleared buffers splices nothing, so no Request
or Result is embedded into more than one outbound payload. -/
theorem c2_splice_and_clear (role pr : String) (c pc : Content)
    (ex pex : List (String × EVal)) (gp : Option ConversationNode)
    (th : PendingBuffers) (hreq : th.requests ≠ []) (hres : th.results ≠ []) :
    (∃ pre,
      (send_prepare (.mk role c ex (some (.mk pr pc pex gp))) th).1
        = pre ++ [(pr, Content.list (pc.asBlocks ++ th.requests)),
                  (role, Content.list (th.results ++ c.asBlocks))])
    ∧ (send_prepare (.mk role c ex (some (.mk pr pc pex gp))) th).2.2
        = ⟨[], []⟩
    ∧ (∀ conv2 : ConversationNode,
        send_prepare conv2 ⟨[], []⟩ = (conv2.build_messages, conv2, ⟨[], []⟩)) := by
  have hr : th.requests.isEmpty = false := by
    cases hh : th.requests with
    | nil => exact absurd hh hreq
    | cons a l => rfl
  have hs : th.results.isEmpty = false := by
    cases hh : th.results with
    | nil => exact absurd hh hres
    | cons a l => rfl
  have hsplice : splice_pending (.mk role c ex (some (.mk pr pc pex gp)))
      th.requests th.results
      = .mk role (.list (th.results ++ c.asBlocks)) ex
          (some (.mk pr (.list (pc.asBlocks ++ th.requests)) pex gp)) := by
    unfold splice_pending
    rw [hr, hs]
    simp [ConversationNode.role, ConversationNode.content, ConversationNode.extras,
      ConversationNode.parent]
  have hne : (ConversationNode.mk role (.list (th.results ++ c.asBlocks)) ex
      (some (.mk pr (.list (pc.asBlocks ++ th.requests)) pex gp))).is_empty
      = false := by
    unfold ConversationNode.is_empty
    simp [ConversationNode.content]
  have key : (send_prepare (.mk role c ex (some (.mk pr pc pex gp))) th).1
      = (ConversationNode.mk pr (.list (pc.asBlocks ++ th.requests)) pex
          gp).path_entries
        ++ [(role, Content.list (th.results ++ c.asBlocks))] := by
    show (splice_pending _ th.requests th.results).build_messages = _
    rw [hsplice]
    unfold ConversationNode.build_messages
    rw [hne]
    simp only [Bool.false_eq_true, if_false]
    exact path_entries_mk _ _ _ _
  refine ⟨?_, rfl, ?_⟩
  · rw [key, path_entries_def]
    cases gp with
    | none => exact ⟨[], by simp⟩
    | some g => exact ⟨g.path_entries, by simp⟩
  · intro conv2
    unfold send_prepare splice_pending
    rfl

/-- Witness for C2 at a concrete conversation and pending buffers. -/
theorem c2_splice_and_clear_witness :
    (PendingBuffers.mk [Segment.toolUse "1" "add" [("a", "2")]]
        [Segment.toolResult "1" (PVal.s "5")]).requests ≠ []
    ∧ (PendingBuffers.mk [Segment.toolUse "1" "add" [("a", "2")]]
        [Segment.toolResult "1" (PVal.s "5")]).results ≠ []
    ∧ ((∃ pre,
        (send_prepare (.mk "user" (Content.str "go") []
            (some (.mk "assistant" (Content.str "prev") [] none)))
          ⟨[Segment.toolUse "1" "add" [("a", "2")]],
           [Segment.toolResult "1" (PVal.s "5")]⟩).1
          = pre ++ [("assistant", Content.list ((Content.str "prev").asBlocks
                      ++ [Segment.toolUse "1" "add" [("a", "2")]])),
                    ("user", Content.list ([Segment.toolResult "1" (PVal.s "5")]
                      ++ (Content.str "go").asBlocks))])
      ∧ (send_prepare (.mk "user" (Content.str "go") []
            (some (.mk "assistant" (Content.str "prev") [] none)))
          ⟨[Segment.toolUse "1" "add" [("a", "2")]],
           [Segment.toolResult "1" (PVal.s "5")]⟩).2.2 = ⟨[], []⟩
      ∧ (∀ conv2 : ConversationNode,
          send_prepare conv2 ⟨[], []⟩
            = (conv2.build_messages, conv2, ⟨[], []⟩))) :=
  ⟨by decide, by decide,
    c2_splice_and_clear "user" "assistant" (Content.str "go") (Content.str "prev")
      [] [] none
      ⟨[Segment.toolUse "1" "add" [("a", "2")]],
       [Segment.toolResult "1" (PVal.s "5")]⟩
      (by decide) (by decide)⟩

/-! ## C3: the truncation-continuation content merge -/

/-- ASCII whitespace, as stripped by Python `str.strip()`. -/
def isPySpace (ch : Char) : Bool :=
  ch == ' ' || ch == '\t' || ch == '\n' || ch == '\r' || ch == '\x0b' || ch == '\x0c'

/-- Leading and trailing whitespace removal on character lists. -/
def stripChars (l : List Char) : List Char :=
  ((l.dropWhile isPySpace).reverse.dropWhile isPySpace).reverse

/-- Python `str.strip()`. -/
def pyStrip (s : String) : String :=
  ⟨stripChars s.data⟩

/-- `AnthropicMailbox.merge_content`, lines 154–171.  The four
`isinstance`-dispatched combinations; the final `raise ValueError` branch is
unreachable here because `Content` has exactly the string and list shapes.
Note the `{list, list}` case returns `new_content` unchanged (the code
comment asserts "new_content contains all of old_content"). -/
def merge_content (existing_content new_content : Content) : Content :=
  match existing_content, new_content with
  | .str e, .str n => .str (pyStrip (e ++ n))
  | .str e, .list l =>
    match l with
    | .text t :: rest => .list (.text (pyStrip (e ++ t)) :: rest)
    | _ => .list (.text (pyStrip e) :: l)
  | .list _, .list l => .list l
  | .list l, .str n =>
    match l.getLast? with
    | some (.text t) => .list (l.dropLast ++ [.text (pyStrip (t ++ n))])
    | _ => .list (l ++ [.text (pyStrip n)])

/-- Merge adjacent text blocks (right fold), used to compare contents up to
the text-coalescing that a correct merge is allowed to perform. -/
def pushText (s : Segment) (acc : List Segment) : List Segment :=
  match s, acc with
  | .text a, .text b :: rest => .text (a ++ b) :: rest
  | _, _ => s :: acc

def mergeAdjacentTexts (l : List Segment) : List Segment :=
  l.foldr pushText []

def Content.isStr : Content → Bool
  | .str _ => true
  | .list _ => false

def Segment.textStripped : Segment → Bool
  | .text t => pyStrip t == t
  | _ => true

/-- All text carried by the content is already free of leading/trailing
whitespace (so `strip` is the identity on it). -/
def Content.textsStripped : Content → Bool
  | .str s => pyStrip s == s
  | .list l => l.all Segment.textStripped

lemma dropWhile_length_le (p : Char → Bool) :
    ∀ l : List Char, (l.dropWhile p).length ≤ l.length
  | [] => le_refl _
  | c :: t => by
    cases hc : p c with
    | true =>
      rw [List.dropWhile_cons, hc, if_pos rfl]
      exact Nat.le_succ_of_le (dropWhile_length_le p t)
    | false =>
      rw [List.dropWhile_cons, hc]
      simp

lemma dropWhile_eq_self_of_length (p : Char → Bool) :
    ∀ l : List Char, (l.dropWhile p).length = l.length → l.dropWhile p = l
  | [], _ => rfl
  | c :: t, h => by
    cases hc : p c with
    | true =>
      rw [List.dropWhile_cons, hc, if_pos rfl] at h
      have := dropWhile_length_le p t
      simp at h
      omega
    | false =>
      rw [List.dropWhile_cons, hc]
      simp

lemma stripChars_parts (l : List Char) (h : stripChars l = l) :
    l.dropWhile isPySpace = l ∧ l.reverse.dropWhile isPySpace = l.reverse := by
  have hlen : (stripChars l).length = l.length := by rw [h]
  have h1 : ((l.dropWhile isPySpace).reverse.dropWhile isPySpace).length
      ≤ (l.dropWhile isPySpace).length := by
    calc ((l.dropWhile isPySpace).reverse.dropWhile isPySpace).length
        ≤ (l.dropWhile isPySpace).reverse.length :=
          dropWhile_length_le _ _
      _ = (l.dropWhile isPySpace).length := List.length_reverse _
  have h2 : (l.dropWhile isPySpace).length ≤ l.length := dropWhile_length_le _ _
  have hslen : (stripChars l).length
      = ((l.dropWhile isPySpace).reverse.dropWhile isPySpace).length := by
    unfold stripChars
    exact List.length_reverse _
  have hdw : l.dropWhile isPySpace = l := by
    apply dropWhile_eq_self_of_length
    omega
  refine ⟨hdw, ?_⟩
  have hs2 : (l.reverse.dropWhile isPySpace).reverse = l := by
    calc (l.reverse.dropWhile isPySpace).reverse
        = stripChars l := by unfold stripChars; rw [hdw]
      _ = l := h
  calc l.reverse.dropWhile isPySpace
      = ((l.reverse.dropWhile isPySpace).reverse).reverse := by
        rw [List.reverse_reverse]
    _ = l.reverse := by rw [hs2]

lemma dropWhile_append_self (a b : List Char)
    (ha : a.dropWhile isPySpace = a) (hb : b.dropWhile isPySpace = b) :
    (a ++ b).dropWhile isPySpace = a ++ b := by
  cases a with
  | nil => simpa using hb
  | cons c t =>
    cases hc : isPySpace c with
    | true =>
      exfalso
      rw [List.dropWhile_cons, hc, if_pos rfl] at ha
      have h1 : (t.dropWhile isPySpace).length ≤ t.length := dropWhile_length_le _ _
      have h2 : (t.dropWhile isPySpace).length = t.length + 1 := by
        rw [ha]
        rfl
      omega
    | false =>
      rw [List.cons_append, List.dropWhile_cons, hc]
      simp

lemma stripChars_append_self (a b : List Char)
    (ha : stripChars a = a) (hb : stripChars b = b) :
    stripChars (a ++ b) = a ++ b := by
  have pa := stripChars_parts a ha
  have pb := stripChars_parts b hb
  unfold stripChars
  rw [dropWhile_append_self a b pa.1 pb.1, List.reverse_append,
    dropWhile_append_self _ _ pb.2 pa.2, ← List.reverse_append,
    List.reverse_reverse]

lemma string_data_append (a b : String) : (a ++ b).data = a.data ++ b.data := by
  cases a
  cases b
  rfl

lemma pyStrip_data (s : String) (h : pyStrip s = s) : stripChars s.data = s.data :=
  congrArg String.data h

lemma pyStrip_append_self (a b : String)
    (ha : pyStrip a = a) (hb : pyStrip b = b) : pyStrip (a ++ b) = a ++ b := by
  unfold pyStrip
  rw [string_data_append,
    stripChars_append_self a.data b.data (pyStrip_data a ha) (pyStrip_data b hb),
    ← string_data_append]

lemma pushText_text_text (a b : String) (acc : List Segment) :
    pushText (.text a) (pushText (.text b) acc) = pushText (.text (a ++ b)) acc := by
  cases acc with
  | nil => rfl
  | cons s rest =>
    cases s with
    | text c =>
      show Segment.text (a ++ (b ++ c)) :: rest = Segment.text (a ++ b ++ c) :: rest
      rw [String.append_assoc]
    | toolUse i nm inp => rfl
    | toolResult i o => rfl

/-- **C3 — counterexample.**  The merge is *not* loss-free on the
`{list, list}` combination: merging an existing list that holds a tool-result
block with a new list drops the tool-result block entirely (the code returns
`new_content` unchanged). -/
theorem c3_merge_counterexample :
    merge_content (.list [.toolResult "1" (PVal.s "x")]) (.list [.text "hi"])
      = .list [.text "hi"]
    ∧ Segment.toolResult "1" (PVal.s "x")
        ∈ (Content.list [.toolResult "1" (PVal.s "x")]).asBlocks
    ∧ Segment.toolResult "1" (PVal.s "x")
        ∉ (merge_content (.list [.toolResult "1" (PVal.s "x")])
            (.list [.text "hi"])).asBlocks := by
  exact ⟨rfl, by decide, by decide⟩

/-- **C3 (amended).**  The merge is a total function over all four
type-combinations, and it is loss-free on the three combinations in which at
least one side is a plain string — for text already free of surrounding
whitespace (`strip` is applied to concatenated text), the merged content
equals the in-order concatenation of both inputs up to coalescing of adjacent
text blocks, with no block dropped.  On the `{list, list}` combination,
however, it simply returns the new list, discarding the existing one (the
code relies on the provider echoing all prior content in the continuation). -/
theorem c3_merge_loss_free_amended :
    (∀ e n : Content, (e.isStr = true ∨ n.isStr = true) →
        e.textsStripped = true → n.textsStripped = true →
        mergeAdjacentTexts (merge_content e n).asBlocks
          = mergeAdjacentTexts (e.asBlocks ++ n.asBlocks))
    ∧ (∀ a b : List Segment, merge_content (.list a) (.list b) = .list b) := by
  constructor
  · intro e n hor he hn
    cases e with
    | str es =>
      have hes : pyStrip es = es := by
        have : (pyStrip es == es) = true := he
        exact eq_of_beq this
      cases n with
      | str ns =>
        have hns : pyStrip ns = ns := by
          have : (pyStrip ns == ns) = true := hn
          exact eq_of_beq this
        show mergeAdjacentTexts [.text (pyStrip (es ++ ns))] = _
        rw [pyStrip_append_self es ns hes hns]
        rfl
      | list l =>
        cases l with
        | nil =>
          show mergeAdjacentTexts [.text (pyStrip es)] = _
          rw [hes]
          rfl
        | cons seg rest =>
          cases seg with
          | text t =>
            have ht : pyStrip t = t := by
              have hall : (Segment.text t :: rest).all Segment.textStripped = true := hn
              rw [List.all_cons, Bool.and_eq_true] at hall
              exact eq_of_beq hall.1
            show mergeAdjacentTexts (.text (pyStrip (es ++ t)) :: rest) = _
            rw [pyStrip_append_self es t hes ht]
            show pushText (.text (es ++ t)) (mergeAdjacentTexts rest) = _
            rw [← pushText_text_text]
            rfl
          | toolUse i nm inp =>
            show mergeAdjacentTexts (.text (pyStrip es) :: .toolUse i nm inp :: rest) = _
            rw [hes]
            rfl
          | toolResult i o =>
            show mergeAdjacentTexts (.text (pyStrip es) :: .toolResult i o :: rest) = _
            rw [hes]
            rfl
    | list l =>
      cases n with
      | list m =>
        exfalso
        cases hor with
        | inl h => simp [Content.isStr] at h
        | inr h => simp [Content.isStr] at h
      | str ns =>
        have hns : pyStrip ns = ns := by
          have : (pyStrip ns == ns) = true := hn
          exact eq_of_beq this
        cases hl : l.getLast? with
        | none =>
          have hnil : l = [] := List.getLast?_eq_none_iff.mp hl
          subst hnil
          show mergeAdjacentTexts ([] ++ [.text (pyStrip ns)]) = _
          rw [hns]
          rfl
        | some seg =>
          cases seg with
          | text t =>
            have hdecomp : l.dropLast ++ [Segment.text t] = l :=
              List.dropLast_append_getLast? _ hl
            have ht : pyStrip t = t := by
              have hall : l.all Segment.textStripped = true := he
              rw [List.all_eq_true] at hall
              have hmem : Segment.text t ∈ l := by
                rw [← hdecomp]
                exact List.mem_append_right _ (List.mem_singleton_self _)
              exact eq_of_beq (hall _ hmem)
            have hmc : merge_content (.list l) (.str ns)
                = .list (l.dropLast ++ [.text (pyStrip (t ++ ns))]) := by
              simp only [merge_content]
              rw [hl]
            rw [hmc, pyStrip_append_self t ns ht hns]
            show mergeAdjacentTexts (l.dropLast ++ [.text (t ++ ns)])
              = mergeAdjacentTexts (l ++ [.text ns])
            conv_rhs => rw [← hdecomp]
            unfold mergeAdjacentTexts
            rw [List.foldr_append, List.foldr_append, List.foldr_append]
            rfl
          | toolUse i nm inp =>
            have hmc : merge_content (.list l) (.str ns)
                = .list (l ++ [.text (pyStrip ns)]) := by
              simp only [merge_content]
              rw [hl]
            rw [hmc, hns]
            rfl
          | toolResult i o =>
            have hmc : merge_content (.list l) (.str ns)
                = .list (l ++ [.text (pyStrip ns)]) := by
              simp only [merge_content]
              rw [hl]
            rw [hmc, hns]
            rfl
  · intro a b
    rfl

/-- Witness for C3 (amended) at a concrete `{string, list}` merge. -/
theorem c3_merge_loss_free_amended_witness :
    ((Content.str "partial").isStr = true
      ∨ (Content.list [.text " tail", .toolUse "1" "add" []]).isStr = true)
    ∧ (Content.str "partial").textsStripped = true
    ∧ (Content.list [.text " tail", .toolUse "1" "add" []]).textsStripped = false
    ∧ (Content.list [.text "tail", .toolUse "1" "add" []]).textsStripped = true
    ∧ mergeAdjacentTexts (merge_content (.str "partial")
          (.list [.text "tail", .toolUse "1" "add" []])).asBlocks
        = mergeAdjacentTexts ((Content.str "partial").asBlocks
            ++ (Content.list [.text "tail", .toolUse "1" "add" []]).asBlocks) :=
  ⟨Or.inl rfl, by decide, by decide, by decide,
    c3_merge_loss_free_amended.1 (.str "partial")
      (.list [.text "tail", .toolUse "1" "add" []])
      (Or.inl rfl) (by decide) (by decide)⟩

/-! ## C5: the send-with-retry loop -/

/-- The exception classes observable around `client.messages.create`:
`anthropic.RateLimitError` and `anthropic.InternalServerError` are the caught
(transient) classes; `other` stands for any other exception (uncaught by the
`except` clause); `maxRetriesReached` is the generic
`Exception('Max retries reached...')` raised after the loop body. -/
inductive SendError where
  | rateLimit
  | internalServer
  | other (msg : String)
  | maxRetriesReached
deriving DecidableEq, Repr

/-- Membership in the `except (InternalServerError, RateLimitError)` tuple. -/
def SendError.isTransient : SendError → Bool
  | .rateLimit => true
  | .internalServer => true
  | _ => false

/-- The retry bound of `_send_message_implementation` (line 135). -/
def max_retries : Nat := 25

/-- The `for attempt in range(max_retries)` loop, lines 137–152.  `provider`
maps the attempt index to the outcome of `client.messages.create` on that
attempt.  Returns the final outcome together with the number of attempts
performed.  On the last transient failure (`attempt == max_retries - 1`) the
code prints the payload (`create_dict`) for diagnostics and re-raises the
caught exception `e` itself; the backoff sleep has no observable effect here.
The `raise Exception('Max retries reached...')` after the loop is reachable
only if the loop finishes without returning or raising — i.e. never when
`fuel` starts at `max_retries > 0`. -/
def retry_loop {R : Type} (provider : Nat → Except SendError R) :
    Nat → Nat → Except SendError R × Nat
  | _, 0 => (.error .maxRetriesReached, 0)
  | attempt, fuel + 1 =>
    match provider attempt with
    | .ok r => (.ok r, 1)
    | .error e =>
      if e.isTransient then
        if attempt == max_retries - 1 then
          (.error e, 1)
        else
          let rest := retry_loop provider (attempt + 1) fuel
          (rest.1, rest.2 + 1)
      else
        (.error e, 1)

/-- The whole send-with-retry call: start at attempt 0 with the full bound. -/
def send_with_retry {R : Type} (provider : Nat → Except SendError R) :
    Except SendError R × Nat :=
  retry_loop provider 0 max_retries

/-- **C5 — counterexample.**  With a provider that always raises a rate-limit
error, the call does fail after exactly 25 attempts, but the error raised is
the *same transient rate-limit exception* re-raised (the payload is only
printed, not attached); it is not a distinct retry-exhaustion error, so the
claim's "fails … with a RetryExhausted error carrying the last payload" is
false on the code. -/
theorem c5_retry_counterexample :
    send_with_retry (fun _ => (Except.error SendError.rateLimit : Except SendError Unit))
      = (.error .rateLimit, 25)
    ∧ SendError.rateLimit.isTransient = true
    ∧ (Except.error SendError.rateLimit : Except SendError Unit)
        ≠ .error .maxRetriesReached := by
  exact ⟨rfl, rfl, fun h => absurd (Except.error.inj h) (by decide)⟩

/-- Stepping the retry loop over `K` leading transient failures (none of which
occurs on the final attempt) adds `K` to the attempt count. -/
lemma retry_loop_skip_transients {R : Type} (provider : Nat → Except SendError R) :
    ∀ (K attempt fuel : Nat),
      attempt + fuel = 25 →
      attempt + K ≤ 24 →
      (∀ i, attempt ≤ i → i < attempt + K →
        ∃ e, provider i = .error e ∧ e.isTransient = true) →
      retry_loop provider attempt fuel
        = ((retry_loop provider (attempt + K) (fuel - K)).1,
           (retry_loop provider (attempt + K) (fuel - K)).2 + K)
  | 0, attempt, fuel, _, _, _ => by simp
  | K + 1, attempt, fuel, hif, hK, h => by
    obtain ⟨f, rfl⟩ : ∃ f, fuel = f + 1 := ⟨fuel - 1, by omega⟩
    obtain ⟨e, he, ht⟩ := h attempt (le_refl _) (by omega)
    have hne : (attempt == max_retries - 1) = false := by
      have hx : attempt ≠ 24 := by omega
      simpa [max_retries] using hx
    have hstep : retry_loop provider attempt (f + 1)
        = ((retry_loop provider (attempt + 1) f).1,
           (retry_loop provider (attempt + 1) f).2 + 1) := by
      rw [retry_loop, he]
      simp [ht, hne]
    have ih := retry_loop_skip_transients provider K (attempt + 1) f
      (by omega) (by omega)
      (fun i hi₁ hi₂ => h i (by omega) (by omega))
    rw [hstep, ih]
    have e₁ : attempt + 1 + K = attempt + (K + 1) := by omega
    have e₂ : f - K = f + 1 - (K + 1) := by omega
    rw [e₁, e₂]
    simp [Nat.add_assoc]

/-- **C5 (amended).**  The retry loop behaves as claimed on attempt counts:
exactly `K + 1` attempts when `K < 25` transient failures precede a success;
exactly 25 attempts when every attempt fails transiently; and a non-transient
error propagates immediately.  However, on exhaustion the code re-raises the
*last transient error itself* (after printing the last payload for
diagnostics); no distinct retry-exhaustion error carrying the payload is
raised. -/
theorem c5_retry_behaviour {R : Type} :
    (∀ (provider : Nat → Except SendError R) (K : Nat) (r : R),
        K < 25 →
        (∀ i, i < K → ∃ e, provider i = .error e ∧ e.isTransient = true) →
        provider K = .ok r →
        send_with_retry provider = (.ok r, K + 1))
    ∧ (∀ provider : Nat → Except SendError R,
        (∀ i : Nat, ∃ e, provider i = .error e ∧ e.isTransient = true) →
        ∃ e, provider 24 = .error e
          ∧ e.isTransient = true
          ∧ send_with_retry provider = (.error e, 25))
    ∧ (∀ (provider : Nat → Except SendError R) (K : Nat) (e : SendError),
        K < 25 →
        (∀ i, i < K → ∃ d, provider i = .error d ∧ d.isTransient = true) →
        provider K = .error e → e.isTransient = false →
        send_with_retry provider = (.error e, K + 1)) := by
  refine ⟨?_, ?_, ?_⟩
  · intro provider K r hK htrans hok
    have skip := retry_loop_skip_transients provider K 0 25 rfl (by omega)
      (fun i _ hi => htrans i (by omega))
    rw [Nat.zero_add] at skip
    obtain ⟨f, hf⟩ : ∃ f, 25 - K = f + 1 := ⟨24 - K, by omega⟩
    rw [hf] at skip
    unfold send_with_retry max_retries
    rw [skip, retry_loop, hok]
    simp [Nat.add_comm]
  · intro provider htrans
    obtain ⟨e, he, ht⟩ := htrans 24
    refine ⟨e, he, ht, ?_⟩
    have skip := retry_loop_skip_transients provider 24 0 25 rfl (by omega)
      (fun i _ hi => htrans i)
    rw [Nat.zero_add] at skip
    have h1 : (25 : Nat) - 24 = 0 + 1 := by norm_num
    rw [h1] at skip
    unfold send_with_retry max_retries
    rw [skip, retry_loop, he]
    simp [ht, max_retries]
  · intro provider K e hK htrans herr hfatal
    have skip := retry_loop_skip_transients provider K 0 25 rfl (by omega)
      (fun i _ hi => htrans i (by omega))
    rw [Nat.zero_add] at skip
    obtain ⟨f, hf⟩ : ∃ f, 25 - K = f + 1 := ⟨24 - K, by omega⟩
    rw [hf] at skip
    unfold send_with_retry max_retries
    rw [skip, retry_loop, herr]
    simp [hfatal, Nat.add_comm]

/-- Witness for C5 (amended): two rate-limit failures, then a success, means
exactly three attempts. -/
theorem c5_retry_behaviour_witness :
    (2 < 25)
    ∧ ((fun i => if i < 2 then (Except.error SendError.rateLimit : Except SendError Unit)
          else .ok ()) 2 = .ok ())
    ∧ send_with_retry (fun i => if i < 2
          then (Except.error SendError.rateLimit : Except SendError Unit)
          else .ok ()) = (.ok (), 3) :=
  ⟨by omega, rfl,
    c5_retry_behaviour.1 _ 2 () (by omega)
      (fun i hi => ⟨SendError.rateLimit, by simp [hi], rfl⟩) rfl⟩

/-! ## C6: conversation-tree state on a Transport failure -/

/-- `Bot._cvsn_respond` (base.py lines 455–471), with `mailbox.send_message`
abstracted as a fallible function of the current conversation: content-merge
failures, tool-dispatch failures and fatal send errors all surface as
exceptions from `send_message`.  The method first appends the user node
(`self.conversation = self.conversation.add_reply(content=text, role=role)`),
then sends; an exception is re-raised, leaving `self.conversation` at the
appended user node.  Returns (outcome, final `self.conversation`). -/
def cvsn_respond (send : ConversationNode →
      Except SendError (String × String × List (String × EVal)))
    (text : Option String) (role : String) (conv : ConversationNode) :
    Except SendError String × ConversationNode :=
  match text with
  | some t =>
    let conv1 := conv.add_reply (.str t) role []
    match send conv1 with
    | .ok r => (.ok r.1, conv1.add_reply (.str r.1) r.2.1 r.2.2)
    | .error e => (.error e, conv1)
  | none =>
    match send conv with
    | .ok r => (.ok r.1, conv.add_reply (.str r.1) r.2.1 r.2.2)
    | .error e => (.error e, conv)

/-- **C6 — counterexample.**  When the Transport cycle fails (here: a
content-merge failure surfacing from `send_message`), the conversation tree is
*not* left exactly as it was before the `respond` call: the user-turn node
appended before the send remains, so `build_messages` of the final tree
differs from that of the original tree. -/
theorem c6_tree_changed_counterexample :
    (cvsn_respond (fun _ => .error (.other "ContentMergeError")) (some "hi")
        "user" (.mk "assistant" (Content.str "prev") [] none)).1
      = .error (.other "ContentMergeError")
    ∧ (cvsn_respond (fun _ => .error (.other "ContentMergeError")) (some "hi")
        "user" (.mk "assistant" (Content.str "prev") [] none)).2.build_messages
      ≠ (ConversationNode.mk "assistant" (Content.str "prev") [] none).build_messages := by
  exact ⟨rfl, by decide⟩

/-- **C6 (amended).**  If the Transport cycle fails, the error propagates and
no *reply* node is appended: the conversation is exactly the original tree
with the single newly appended user-turn node (appended before the send); a
reply node is appended only after the Transport cycle fully resolves.  When no
new text is supplied, a failing send leaves the tree exactly unchanged. -/
theorem c6_no_reply_node_on_failure
    (send : ConversationNode →
      Except SendError (String × String × List (String × EVal)))
    (t role : String) (conv : ConversationNode) (e : SendError)
    (hfail : send (conv.add_reply (.str t) role []) = .error e) :
    cvsn_respond send (some t) role conv
      = (.error e, conv.add_reply (.str t) role [])
    ∧ (∀ conv2, send conv2 = .error e →
        cvsn_respond send none role conv2 = (.error e, conv2)) := by
  constructor
  · show (match send (conv.add_reply (.str t) role []) with
      | Except.ok r => (Except.ok r.1,
          (conv.add_reply (.str t) role []).add_reply (.str r.1) r.2.1 r.2.2)
      | Except.error e => (Except.error e, conv.add_reply (.str t) role []))
      = (.error e, conv.add_reply (.str t) role [])
    rw [hfail]
  · intro conv2 h2
    show (match send conv2 with
      | Except.ok r => (Except.ok r.1, conv2.add_reply (.str r.1) r.2.1 r.2.2)
      | Except.error e => (Except.error e, conv2)) = (.error e, conv2)
    rw [h2]

/-- Witness for C6 (amended) at a concrete conversation and failing transport. -/
theorem c6_no_reply_node_on_failure_witness :
    ((fun _ => (Except.error (SendError.other "boom") :
        Except SendError (String × String × List (String × EVal))))
      ((ConversationNode.mk "assistant" (Content.str "prev") [] none).add_reply
        (.str "hi") "user" []) = .error (.other "boom"))
    ∧ (cvsn_respond (fun _ => .error (.other "boom")) (some "hi") "user"
          (.mk "assistant" (Content.str "prev") [] none)
        = (.error (.other "boom"),
           (ConversationNode.mk "assistant" (Content.str "prev") [] none).add_reply
             (.str "hi") "user" [])
      ∧ (∀ conv2, (fun _ => (Except.error (SendError.other "boom") :
            Except SendError (String × String × List (String × EVal)))) conv2
              = .error (.other "boom") →
          cvsn_respond (fun _ => .error (.other "boom")) none "user" conv2
            = (.error (.other "boom"), conv2))) :=
  ⟨rfl, c6_no_reply_node_on_failure _ "hi" "user"
    (.mk "assistant" (Content.str "prev") [] none) (.other "boom") rfl⟩

/-! ## C4: the auto tool-use loop (`respond(…, tool_auto=True)`) -/

/-- One `Bot._cvsn_respond` round under a stubbed transport: `mb k` is the
processed response of the `k`-th `mailbox.send_message` call, as the
`(response_text, response_role, extra_data)` triple produced by
`AnthropicMailbox._process_response`; the `extra_data` entries become node
attributes via `add_reply(**extra_data)`. -/
def cvsn_respond_stub (mb : Nat → String × String × List (String × EVal))
    (k : Nat) (text role : String) (conv : ConversationNode) :
    String × ConversationNode :=
  let conv1 := conv.add_reply (.str text) role []
  let r := mb k
  (r.1, conv1.add_reply (.str r.1) r.2.1 r.2.2)

/-- `getattr(self.conversation, 'attributes', {})` (base.py line 489): node
attributes are stored per-key by `__init__(**kwargs)`, so this looks up an
attribute literally named `attributes`, defaulting to the empty dict. -/
def conversation_attributes (n : ConversationNode) : EVal :=
  match n.extras.lookup "attributes" with
  | some v => v
  | none => .dict []

/-- The `while tool_prompt_counter < max_tool_prompts` loop of
`Bot._respond_auto` (lines 488–499), with `fuel = max_tool_prompts -
tool_prompt_counter` (the cap is 8 and the counter starts at 1).  Returns the
accumulated reply, the final conversation, and the next mailbox call index
(= number of transport calls performed so far). -/
def respond_auto_loop (mb : Nat → String × String × List (String × EVal))
    (role : String) :
    Nat → String → ConversationNode → Nat → String × ConversationNode × Nat
  | 0, total, conv, k => (total, conv, k)
  | fuel + 1, total, conv, k =>
    let extra_data := conversation_attributes conv
    if truthy (extra_data.dictGet "requests") then
      let follow_up := "(auto for " ++ toString (fuel + 1) ++ " more tool calls max)"
      let r := cvsn_respond_stub mb k follow_up role conv
      respond_auto_loop mb role fuel (total ++ "\n\n ...working... \n\n" ++ r.1)
        r.2 (k + 1)
    else
      (total, conv, k)

/-- `Bot._respond_auto`: one initial respond, then up to 7 further tool
cycles. -/
def respond_auto (mb : Nat → String × String × List (String × EVal))
    (content role : String) (conv : ConversationNode) :
    String × ConversationNode × Nat :=
  let r := cvsn_respond_stub mb 0 content role conv
  respond_auto_loop mb role 7 r.1 r.2 1

/-- A transport stub that always reports a pending tool request: every
processed response carries `extra_data = {'requests': […], 'results': […]}`,
exactly what `_process_response` returns when `stop_reason == 'tool_use'`. -/
def always_tool_requests_mb : Nat → String × String × List (String × EVal) :=
  fun k => ("reply" ++ toString k, "assistant",
    [("requests", .segs [.toolUse "1" "add" [("a", "2"), ("b", "3")]]),
     ("results", .segs [.toolResult "1" (PVal.s "5")])])

/-- **C4 — the code evaluated at the claim's scenario.**  With a transport
that always reports a pending tool request, `respond(content, tool_auto=True)`
performs exactly **one** transport call and returns only the first reply text:
the loop reads `getattr(self.conversation, 'attributes', {})`, but the tool
metadata is stored as the node attributes `requests` / `results` (an attribute
named `attributes` is never set), so `extra_data.get('requests')` is always
`None` and the loop exits immediately — not the 8 accumulating cycles the
claim (and the code's own docstring "loops until the bot does not use a
tool") describes. -/
theorem c4_auto_loop_runs_once :
    (respond_auto always_tool_requests_mb "hello" "user"
        ConversationNode.create_empty).1 = "reply0"
    ∧ (respond_auto always_tool_requests_mb "hello" "user"
        ConversationNode.create_empty).2.2 = 1
    ∧ (respond_auto always_tool_requests_mb "hello" "user"
        ConversationNode.create_empty).2.1.depth = 1
    ∧ (conversation_attributes (respond_auto always_tool_requests_mb "hello"
        "user" ConversationNode.create_empty).2.1).dictGet "requests" = none
    ∧ ((respond_auto always_tool_requests_mb "hello" "user"
        ConversationNode.create_empty).2.1.extras.lookup "requests").isSome
        = true := by
  exact ⟨rfl, rfl, rfl, rfl, rfl⟩

/-! ## C7: tool dispatch (`ToolHandler.handle_response`) -/

/-- A registered tool callable: maps the request's input mapping (invoked as
keyword arguments) to an output, or raises (`Except.error` carries the
callable's own exception message). -/
abbrev ToolFn := List (String × String) → Except String PVal

/-- `AnthropicToolHandler.generate_request_schema`: the `tool_use` blocks of
the response content, in provider emission order. -/
def generate_request_schema (blocks : List Segment) : List Segment :=
  blocks.filter (fun b => b.type == "tool_use")

/-- `AnthropicToolHandler.tool_name_and_input`: `(schema['name'],
schema['input'])`.  Only ever applied to `tool_use` schemas. -/
def tool_name_and_input : Segment → String × List (String × String)
  | .toolUse _ n inp => (n, inp)
  | _ => ("", [])

/-- `AnthropicToolHandler.generate_response_schema`:
`{'type': 'tool_result', 'tool_use_id': request.get('id', 'unknown id'),
'content': output}`. -/
def generate_response_schema (request : Segment) (output : PVal) : Segment :=
  .toolResult
    (match request with
     | .toolUse i _ _ => i
     | _ => "unknown id")
    output

/-- The Python exceptions observable from `handle_response`: `KeyError` from
`self.function_map[tool_name]` when the name is not registered (the spec's
UnknownTool), and the tool callable's own exception propagating unwrapped
(what the spec calls ToolExecutionError). -/
inductive DispatchError where
  | keyError (name : String)
  | toolExn (msg : String)
deriving DecidableEq, Repr

/-- Resolution and invocation of one request against the registry
(`self.function_map[tool_name](**input_kwargs)`). -/
def run_tool (fmap : List (String × ToolFn)) (req : Segment) :
    Except DispatchError PVal :=
  match fmap.lookup (tool_name_and_input req).1 with
  | none => .error (.keyError (tool_name_and_input req).1)
  | some f =>
    match f (tool_name_and_input req).2 with
    | .error m => .error (.toolExn m)
    | .ok out => .ok out

/-- The `for request_schema in requests` loop of `handle_response` (base.py
lines 206–212): resolve each request by name, invoke the callable with the
input mapping, build the result schema, and append request and result to the
handler's buffers.  The trace records each actual tool invocation
`(name, input)` in order; on an exception the loop aborts — the partially
filled buffers remain (the Python handler object keeps its state) and no
later request is executed. -/
def dispatch_loop (fmap : List (String × ToolFn)) :
    List Segment → PendingBuffers → List (String × List (String × String)) →
    Option DispatchError × PendingBuffers × List (String × List (String × String))
  | [], th, trace => (none, th, trace)
  | req :: rest, th, trace =>
    match fmap.lookup (tool_name_and_input req).1 with
    | none => (some (.keyError (tool_name_and_input req).1), th, trace)
    | some f =>
      match f (tool_name_and_input req).2 with
      | .error m => (some (.toolExn m), th, trace ++ [tool_name_and_input req])
      | .ok out =>
        dispatch_loop fmap rest
          ⟨th.requests ++ [req],
           th.results ++ [generate_response_schema req out]⟩
          (trace ++ [tool_name_and_input req])

/-- `ToolHandler.handle_response`: `self.clear()`, generate the request
schemas from the response, run the dispatch loop, and return
`(self.requests, self.results)`; exceptions propagate.  The second component
is the handler's buffer state afterwards, the third the invocation trace. -/
def handle_response (fmap : List (String × ToolFn)) (responseBlocks : List Segment) :
    Except DispatchError (List Segment × List Segment) × PendingBuffers
      × List (String × List (String × String)) :=
  match dispatch_loop fmap (generate_request_schema responseBlocks) ⟨[], []⟩ [] with
  | (none, th, trace) => (.ok (th.requests, th.results), th, trace)
  | (some e, th, trace) => (.error e, th, trace)

/-- Running the dispatch loop over a prefix of requests that all resolve and
succeed appends exactly those requests, their results and their invocations. -/
lemma dispatch_loop_prefix_ok (fmap : List (String × ToolFn))
    (valOf : Segment → PVal) :
    ∀ (pre rest : List Segment) (th : PendingBuffers)
      (trace : List (String × List (String × String))),
      (∀ r ∈ pre, run_tool fmap r = .ok (valOf r)) →
      dispatch_loop fmap (pre ++ rest) th trace
        = dispatch_loop fmap rest
            ⟨th.requests ++ pre,
             th.results ++ pre.map (fun r => generate_response_schema r (valOf r))⟩
            (trace ++ pre.map tool_name_and_input)
  | [], rest, th, trace, _ => by simp
  | req :: pre, rest, th, trace, h => by
    have h0 := h req (List.mem_cons_self req pre)
    cases hl : fmap.lookup (tool_name_and_input req).1 with
    | none =>
      exfalso
      simp [run_tool, hl] at h0
    | some f =>
      cases hf : f (tool_name_and_input req).2 with
      | error m =>
        exfalso
        simp [run_tool, hl, hf] at h0
      | ok out =>
        have hout : out = valOf req := by
          simp [run_tool, hl, hf] at h0
          exact h0
        have hstep : dispatch_loop fmap ((req :: pre) ++ rest) th trace
            = dispatch_loop fmap (pre ++ rest)
                ⟨th.requests ++ [req],
                 th.results ++ [generate_response_schema req out]⟩
                (trace ++ [tool_name_and_input req]) := by
          show (match fmap.lookup (tool_name_and_input req).1 with
            | none => (some (DispatchError.keyError (tool_name_and_input req).1),
                th, trace)
            | some f =>
              match f (tool_name_and_input req).2 with
              | Except.error m => (some (DispatchError.toolExn m), th,
                  trace ++ [tool_name_and_input req])
              | Except.ok out =>
                dispatch_loop fmap (pre ++ rest)
                  ⟨th.requests ++ [req],
                   th.results ++ [generate_response_schema req out]⟩
                  (trace ++ [tool_name_and_input req])) = _
          rw [hl]
          show (match f (tool_name_and_input req).2 with
            | Except.error m => (some (DispatchError.toolExn m), th,
                trace ++ [tool_name_and_input req])
            | Except.ok out =>
              dispatch_loop fmap (pre ++ rest)
                ⟨th.requests ++ [req],
                 th.results ++ [generate_response_schema req out]⟩
                (trace ++ [tool_name_and_input req])) = _
          rw [hf]
        rw [hstep, hout,
          dispatch_loop_prefix_ok fmap valOf pre rest _ _
            (fun r hr => h r (List.mem_cons_of_mem req hr))]
        simp

lemma dispatch_loop_head_unknown (fmap : List (String × ToolFn))
    (req : Segment) (rest : List Segment) (th : PendingBuffers)
    (trace : List (String × List (String × String)))
    (hl : fmap.lookup (tool_name_and_input req).1 = none) :
    dispatch_loop fmap (req :: rest) th trace
      = (some (.keyError (tool_name_and_input req).1), th, trace) := by
  show (match fmap.lookup (tool_name_and_input req).1 with
    | none => (some (DispatchError.keyError (tool_name_and_input req).1),
        th, trace)
    | some f =>
      match f (tool_name_and_input req).2 with
      | Except.error m => (some (DispatchError.toolExn m), th,
          trace ++ [tool_name_and_input req])
      | Except.ok out =>
        dispatch_loop fmap rest
          ⟨th.requests ++ [req],
           th.results ++ [generate_response_schema req out]⟩
          (trace ++ [tool_name_and_input req])) = _
  rw [hl]

lemma dispatch_loop_head_exn (fmap : List (String × ToolFn))
    (req : Segment) (rest : List Segment) (th : PendingBuffers)
    (trace : List (String × List (String × String))) (f : ToolFn) (m : String)
    (hl : fmap.lookup (tool_name_and_input req).1 = some f)
    (hf : f (tool_name_and_input req).2 = .error m) :
    dispatch_loop fmap (req :: rest) th trace
      = (some (.toolExn m), th, trace ++ [tool_name_and_input req]) := by
  show (match fmap.lookup (tool_name_and_input req).1 with
    | none => (some (DispatchError.keyError (tool_name_and_input req).1),
        th, trace)
    | some f =>
      match f (tool_name_and_input req).2 with
      | Except.error m => (some (DispatchError.toolExn m), th,
          trace ++ [tool_name_and_input req])
      | Except.ok out =>
        dispatch_loop fmap rest
          ⟨th.requests ++ [req],
           th.results ++ [generate_response_schema req out]⟩
          (trace ++ [tool_name_and_input req])) = _
  rw [hl]
  show (match f (tool_name_and_input req).2 with
    | Except.error m => (some (DispatchError.toolExn m), th,
        trace ++ [tool_name_and_input req])
    | Except.ok out =>
      dispatch_loop fmap rest
        ⟨th.requests ++ [req],
         th.results ++ [generate_response_schema req out]⟩
        (trace ++ [tool_name_and_input req])) = _
  rw [hf]

/-- **C7.**  Tool dispatch processes pending Requests in provider emission
order, resolving each by name and invoking it with the Request's input
mapping; on success it returns the full parallel Request/Result lists (equal
length, index-aligned: the `i`-th Result is the response schema of the `i`-th
Request) and leaves them buffered as pending; an unregistered name fails with
`KeyError` (UnknownTool) before any invocation of that request; a tool
callable's own exception propagates (ToolExecutionError) and aborts the
remaining batch — the invocation trace stops at the failing request, so no
later request is executed. -/
theorem c7_dispatch_in_order_with_abort (fmap : List (String × ToolFn)) :
    (∀ (blocks : List Segment) (valOf : Segment → PVal),
        (∀ r ∈ generate_request_schema blocks, run_tool fmap r = .ok (valOf r)) →
        handle_response fmap blocks
          = (.ok (generate_request_schema blocks,
                (generate_request_schema blocks).map
                  (fun r => generate_response_schema r (valOf r))),
             ⟨generate_request_schema blocks,
              (generate_request_schema blocks).map
                (fun r => generate_response_schema r (valOf r))⟩,
             (generate_request_schema blocks).map tool_name_and_input)
          ∧ ((generate_request_schema blocks).map
              (fun r => generate_response_schema r (valOf r))).length
              = (generate_request_schema blocks).length)
    ∧ (∀ (blocks : List Segment) (valOf : Segment → PVal)
          (pre : List Segment) (bad : Segment) (post : List Segment),
        generate_request_schema blocks = pre ++ bad :: post →
        (∀ r ∈ pre, run_tool fmap r = .ok (valOf r)) →
        fmap.lookup (tool_name_and_input bad).1 = none →
        (handle_response fmap blocks).1
            = .error (.keyError (tool_name_and_input bad).1)
          ∧ (handle_response fmap blocks).2.2 = pre.map tool_name_and_input)
    ∧ (∀ (blocks : List Segment) (valOf : Segment → PVal)
          (pre : List Segment) (bad : Segment) (post : List Segment)
          (f : ToolFn) (m : String),
        generate_request_schema blocks = pre ++ bad :: post →
        (∀ r ∈ pre, run_tool fmap r = .ok (valOf r)) →
        fmap.lookup (tool_name_and_input bad).1 = some f →
        f (tool_name_and_input bad).2 = .error m →
        (handle_response fmap blocks).1 = .error (.toolExn m)
          ∧ (handle_response fmap blocks).2.2
              = pre.map tool_name_and_input ++ [tool_name_and_input bad]) := by
  refine ⟨?_, ?_, ?_⟩
  · intro blocks valOf h
    have hd := dispatch_loop_prefix_ok fmap valOf
      (generate_request_schema blocks) [] ⟨[], []⟩ [] h
    rw [List.append_nil] at hd
    refine ⟨?_, by rw [List.length_map]⟩
    unfold handle_response
    rw [hd]
    rfl
  · intro blocks valOf pre bad post hsplit hpre hl
    have hd := dispatch_loop_prefix_ok fmap valOf pre (bad :: post) ⟨[], []⟩ [] hpre
    simp only [List.nil_append] at hd
    have hu := dispatch_loop_head_unknown fmap bad post
      ⟨pre, pre.map (fun r => generate_response_schema r (valOf r))⟩
      (pre.map tool_name_and_input) hl
    unfold handle_response
    rw [hsplit, hd, hu]
    exact ⟨rfl, rfl⟩
  · intro blocks valOf pre bad post f m hsplit hpre hl hf
    have hd := dispatch_loop_prefix_ok fmap valOf pre (bad :: post) ⟨[], []⟩ [] hpre
    simp only [List.nil_append] at hd
    have hu := dispatch_loop_head_exn fmap bad post
      ⟨pre, pre.map (fun r => generate_response_schema r (valOf r))⟩
      (pre.map tool_name_and_input) f m hl hf
    unfold handle_response
    rw [hsplit, hd, hu]
    exact ⟨rfl, rfl⟩

/-- Witness for C7: one registered tool, one pending request, successful
dispatch. -/
theorem c7_dispatch_in_order_with_abort_witness :
    (∀ r ∈ generate_request_schema
        [Segment.text "thinking", Segment.toolUse "1" "add" [("a", "2"), ("b", "3")]],
      run_tool [("add", (fun _ => Except.ok (PVal.s "5") : ToolFn))] r
        = .ok ((fun _ => PVal.s "5") r))
    ∧ handle_response [("add", (fun _ => Except.ok (PVal.s "5") : ToolFn))]
        [Segment.text "thinking", Segment.toolUse "1" "add" [("a", "2"), ("b", "3")]]
      = (.ok ([Segment.toolUse "1" "add" [("a", "2"), ("b", "3")]],
              [Segment.toolResult "1" (PVal.s "5")]),
         ⟨[Segment.toolUse "1" "add" [("a", "2"), ("b", "3")]],
          [Segment.toolResult "1" (PVal.s "5")]⟩,
         [("add", [("a", "2"), ("b", "3")])]) := by
  have hyp : ∀ r ∈ generate_request_schema
      [Segment.text "thinking", Segment.toolUse "1" "add" [("a", "2"), ("b", "3")]],
      run_tool [("add", (fun _ => Except.ok (PVal.s "5") : ToolFn))] r
        = .ok ((fun _ => PVal.s "5") r) := by
    intro r hr
    have hr2 : r = Segment.toolUse "1" "add" [("a", "2"), ("b", "3")] := by
      simpa [generate_request_schema, Segment.type] using hr
    rw [hr2]
    rfl
  exact ⟨hyp,
    ((c7_dispatch_in_order_with_abort
      [("add", (fun _ => Except.ok (PVal.s "5") : ToolFn))]).1
      [Segment.text "thinking", Segment.toolUse "1" "add" [("a", "2"), ("b", "3")]]
      (fun _ => PVal.s "5") hyp).1⟩

/-! ## C8: serialize → deserialize round trip and parent reconstruction -/

/-- Value-level view of a full conversation tree (children included), the
shape that `root_dict` serialises starting from the root. -/
inductive CTree where
  | mk (role : String) (content : Content) (extras : List (String × EVal))
      (replies : List CTree)

/-- The persisted nested record built by `_to_dict_recursive`: node fields
plus an optional `replies` list (the `replies` key is added only when the
reply list is nonempty, and `from_dict` reads it with
`data.get('replies', [])`).  The record has *no* `parent` field, mirroring
`_to_dict_self`'s exclusion of `parent`. -/
inductive PDict where
  | mk (role : String) (content : Content) (extras : List (String × EVal))
      (replies : Option (List PDict))

/-- Python `k.startswith('_')`: the first character is an underscore. -/
def startsWithUnderscore (s : String) : Bool :=
  match s.data with
  | [] => false
  | c :: _ => c == '_'

/-- The attribute filter of `_to_dict_self`: keep attributes that are not
underscore-prefixed, not `parent`, not `replies`, and not callable (`role`
and `content` are kept as the explicit record fields). -/
def clean_attr (kv : String × EVal) : Bool :=
  !startsWithUnderscore kv.1 && kv.1 != "parent" && kv.1 != "replies"
    && !kv.2.isCallable

def serialize_extras (extras : List (String × EVal)) : List (String × EVal) :=
  extras.filter clean_attr

mutual

/-- `ConversationNode._to_dict_recursive`: serialise this node via
`_to_dict_self` and recurse into `replies` when nonempty. -/
def CTree.to_dict_recursive : CTree → PDict
  | .mk r c ex [] => .mk r c (serialize_extras ex) none
  | .mk r c ex (t :: ts) =>
    .mk r c (serialize_extras ex) (some (to_dict_list (t :: ts)))

def to_dict_list : List CTree → List PDict
  | [] => []
  | t :: ts => CTree.to_dict_recursive t :: to_dict_list ts

end

mutual

/-- `ConversationNode.from_dict`, value-level view: rebuild the node from the
non-`replies` fields and recurse into `data.get('replies', [])`. -/
def PDict.from_dict_tree : PDict → CTree
  | .mk r c ex none => .mk r c ex []
  | .mk r c ex (some rs) => .mk r c ex (from_dict_tree_list rs)

def from_dict_tree_list : List PDict → List CTree
  | [] => []
  | d :: ds => PDict.from_dict_tree d :: from_dict_tree_list ds

end

mutual

/-- All extra attributes in the tree survive the `_to_dict_self` filter
(plain data, no reserved or underscore-prefixed names). -/
def CTree.cleanExtras : CTree → Bool
  | .mk _ _ ex rs => ex.all clean_attr && cleanExtras_list rs

def cleanExtras_list : List CTree → Bool
  | [] => true
  | t :: ts => CTree.cleanExtras t && cleanExtras_list ts

end

mutual

/-- `ConversationNode.from_dict` at pointer level: allocate the node (its
`parent` as assigned by the caller — `from_dict` constructs with
`parent = None` and the caller then sets `reply_node.parent = node`, so the
net parent is the allocating node), then build each reply dict recursively
with `parent =` this node's index, collecting the reply indices. -/
def from_dict_store : PDict → Option Nat → Store → Store × Nat
  | .mk r c ex none, parent, s => (s ++ [⟨r, c, ex, parent, []⟩], s.length)
  | .mk r c ex (some rs), parent, s =>
    let s1 := s ++ [⟨r, c, ex, parent, []⟩]
    let res := from_dict_store_list rs s.length s1
    (res.1.set s.length ⟨r, c, ex, parent, res.2⟩, s.length)

def from_dict_store_list : List PDict → Nat → Store → Store × List Nat
  | [], _, s => (s, [])
  | d :: ds, p, s =>
    let r1 := from_dict_store d (some p) s
    let r2 := from_dict_store_list ds p r1.1
    (r2.1, r1.2 :: r2.2)

end

/-- Parent pointers invert reply pointers: for every node `i` of the store and
every index `j` in its reply list, node `j` exists and its parent is `i`. -/
def parent_ok (s : Store) : Prop :=
  ∀ (i : Nat) (nd : NodeData), s[i]? = some nd → ∀ j ∈ nd.replies,
    ∃ nd2 : NodeData, s[j]? = some nd2 ∧ nd2.parent = some i

lemma serialize_extras_eq_self (ex : List (String × EVal))
    (h : ex.all clean_attr = true) : serialize_extras ex = ex := by
  unfold serialize_extras
  rw [List.all_eq_true] at h
  exact List.filter_eq_self.mpr h

mutual

lemma from_to_dict_tree : ∀ (t : CTree), CTree.cleanExtras t = true →
    PDict.from_dict_tree (CTree.to_dict_recursive t) = t
  | .mk r c ex [], h => by
    have h2 : (ex.all clean_attr && cleanExtras_list []) = true := h
    rw [Bool.and_eq_true] at h2
    show PDict.from_dict_tree (.mk r c (serialize_extras ex) none) = _
    show CTree.mk r c (serialize_extras ex) [] = CTree.mk r c ex []
    rw [serialize_extras_eq_self ex h2.1]
  | .mk r c ex (t :: ts), h => by
    have h2 : (ex.all clean_attr && cleanExtras_list (t :: ts)) = true := h
    rw [Bool.and_eq_true] at h2
    show PDict.from_dict_tree (.mk r c (serialize_extras ex)
      (some (to_dict_list (t :: ts)))) = _
    show CTree.mk r c (serialize_extras ex)
      (from_dict_tree_list (to_dict_list (t :: ts))) = CTree.mk r c ex (t :: ts)
    rw [serialize_extras_eq_self ex h2.1, from_to_dict_list (t :: ts) h2.2]

lemma from_to_dict_list : ∀ (ts : List CTree), cleanExtras_list ts = true →
    from_dict_tree_list (to_dict_list ts) = ts
  | [], _ => rfl
  | t :: ts, h => by
    have h2 : (CTree.cleanExtras t && cleanExtras_list ts) = true := h
    rw [Bool.and_eq_true] at h2
    show PDict.from_dict_tree (CTree.to_dict_recursive t)
      :: from_dict_tree_list (to_dict_list ts) = t :: ts
    rw [from_to_dict_tree t h2.1, from_to_dict_list ts h2.2]

end

lemma serialize_extras_no_parent (ex : List (String × EVal)) :
    "parent" ∉ (serialize_extras ex).map Prod.fst := by
  intro hmem
  rw [List.mem_map] at hmem
  obtain ⟨kv, hkv, hfst⟩ := hmem
  rw [serialize_extras, List.mem_filter] at hkv
  have hc := hkv.2
  unfold clean_attr at hc
  rw [hfst] at hc
  simp at hc

mutual

/-- Allocation spec of `from_dict_store`: the node is allocated at the old
store end; earlier entries are untouched; every newly allocated node's reply
indices point strictly forward, stay in range, and are inverted by correct
parent pointers; the allocated root carries the requested parent. -/
lemma from_dict_store_spec : ∀ (d : PDict) (parent : Option Nat) (s : Store),
    (from_dict_store d parent s).2 = s.length
    ∧ s.length < (from_dict_store d parent s).1.length
    ∧ (∀ k, k < s.length → (from_dict_store d parent s).1[k]? = s[k]?)
    ∧ (∀ (k : Nat) (nd : NodeData), s.length ≤ k →
        (from_dict_store d parent s).1[k]? = some nd →
        ∀ j ∈ nd.replies, k < j ∧ j < (from_dict_store d parent s).1.length ∧
          ∃ nd2 : NodeData, (from_dict_store d parent s).1[j]? = some nd2
            ∧ nd2.parent = some k)
    ∧ (∃ nd : NodeData, (from_dict_store d parent s).1[s.length]? = some nd
        ∧ nd.parent = parent)
  | .mk r c ex none, parent, s => by
    have h1 : (from_dict_store (.mk r c ex none) parent s).1
        = s ++ [⟨r, c, ex, parent, []⟩] := rfl
    have h2 : (from_dict_store (.mk r c ex none) parent s).2 = s.length := rfl
    rw [h1, h2]
    refine ⟨rfl, by simp, ?_, ?_, ?_⟩
    · intro k hk
      exact List.getElem?_append_left hk
    · intro k nd hk hget j hj
      rcases Nat.lt_or_ge k (s.length + 1) with hk2 | hk2
      · have hki : k = s.length := by omega
        subst hki
        rw [List.getElem?_concat_length] at hget
        have hnd : nd = ⟨r, c, ex, parent, []⟩ := (Option.some.inj hget).symm
        subst hnd
        exact absurd hj (by simp)
      · have hnone : (s ++ [(⟨r, c, ex, parent, []⟩ : NodeData)])[k]? = none := by
          apply List.getElem?_eq_none
          simp
          omega
        rw [hnone] at hget
        exact absurd hget (by simp)
    · exact ⟨⟨r, c, ex, parent, []⟩, List.getElem?_concat_length _ _, rfl⟩
  | .mk r c ex (some rs), parent, s => by
    obtain ⟨hLA, hLB, hLC, hLD⟩ := from_dict_store_list_spec rs s.length
      (s ++ [⟨r, c, ex, parent, []⟩])
    have hs1len : (s ++ [(⟨r, c, ex, parent, []⟩ : NodeData)]).length
        = s.length + 1 := by simp
    have h1 : (from_dict_store (.mk r c ex (some rs)) parent s).1
        = (from_dict_store_list rs s.length
            (s ++ [⟨r, c, ex, parent, []⟩])).1.set s.length
          ⟨r, c, ex, parent,
           (from_dict_store_list rs s.length
             (s ++ [⟨r, c, ex, parent, []⟩])).2⟩ := rfl
    have h2 : (from_dict_store (.mk r c ex (some rs)) parent s).2
        = s.length := rfl
    rw [h1, h2]
    rw [hs1len] at hLA hLB hLC hLD
    have hi2 : s.length < (from_dict_store_list rs s.length
        (s ++ [⟨r, c, ex, parent, []⟩])).1.length := by omega
    refine ⟨rfl, by rw [List.length_set]; omega, ?_, ?_, ?_⟩
    · intro k hk
      rw [List.getElem?_set_ne (by omega)]
      rw [hLB k (by omega)]
      exact List.getElem?_append_left hk
    · intro k nd hk hget j hj
      by_cases hki : k = s.length
      · subst hki
        rw [List.getElem?_set_eq_of_lt _ hi2] at hget
        have hnd : nd = ⟨r, c, ex, parent,
            (from_dict_store_list rs s.length
              (s ++ [⟨r, c, ex, parent, []⟩])).2⟩ := (Option.some.inj hget).symm
        subst hnd
        obtain ⟨hj1, hj2, nd2, hnd2, hp⟩ := hLC j hj
        refine ⟨by omega, by rw [List.length_set]; omega, nd2, ?_, hp⟩
        rw [List.getElem?_set_ne (by omega)]
        exact hnd2
      · rw [List.getElem?_set_ne (by omega)] at hget
        obtain ⟨hkj, hjlen, nd2, hnd2, hp⟩ := hLD k nd (by omega) hget j hj
        refine ⟨hkj, by rw [List.length_set]; omega, nd2, ?_, hp⟩
        rw [List.getElem?_set_ne (by omega)]
        exact hnd2
    · exact ⟨⟨r, c, ex, parent,
        (from_dict_store_list rs s.length
          (s ++ [⟨r, c, ex, parent, []⟩])).2⟩,
        List.getElem?_set_eq_of_lt _ hi2, rfl⟩

/-- Allocation spec of `from_dict_store_list`: analogous, with every reply
root allocated at or after the old store end and parented to `p`. -/
lemma from_dict_store_list_spec : ∀ (ds : List PDict) (p : Nat) (s : Store),
    s.length ≤ (from_dict_store_list ds p s).1.length
    ∧ (∀ k, k < s.length → (from_dict_store_list ds p s).1[k]? = s[k]?)
    ∧ (∀ j ∈ (from_dict_store_list ds p s).2,
        s.length ≤ j ∧ j < (from_dict_store_list ds p s).1.length ∧
          ∃ nd2 : NodeData, (from_dict_store_list ds p s).1[j]? = some nd2
            ∧ nd2.parent = some p)
    ∧ (∀ (k : Nat) (nd : NodeData), s.length ≤ k →
        (from_dict_store_list ds p s).1[k]? = some nd →
        ∀ j ∈ nd.replies, k < j ∧ j < (from_dict_store_list ds p s).1.length ∧
          ∃ nd2 : NodeData, (from_dict_store_list ds p s).1[j]? = some nd2
            ∧ nd2.parent = some k)
  | [], p, s => by
    refine ⟨le_refl _, fun k _ => rfl, ?_, ?_⟩
    · intro j hj
      exact absurd hj (by simp [from_dict_store_list])
    · intro k nd hk hget j hj
      have hlt : k < s.length := (List.getElem?_eq_some.mp hget).1
      omega
  | d :: ds, p, s => by
    obtain ⟨hA, hB, hC, hD, hE⟩ := from_dict_store_spec d (some p) s
    obtain ⟨hLA, hLB, hLC, hLD⟩ :=
      from_dict_store_list_spec ds p (from_dict_store d (some p) s).1
    have h1 : (from_dict_store_list (d :: ds) p s).1
        = (from_dict_store_list ds p (from_dict_store d (some p) s).1).1 := rfl
    have h2 : (from_dict_store_list (d :: ds) p s).2
        = (from_dict_store d (some p) s).2
          :: (from_dict_store_list ds p (from_dict_store d (some p) s).1).2 :=
      rfl
    rw [h1, h2]
    refine ⟨by omega, ?_, ?_, ?_⟩
    · intro k hk
      rw [hLB k (by omega)]
      exact hC k hk
    · intro j hj
      rcases List.mem_cons.mp hj with hj1 | hj2
      · rw [hj1, hA]
        obtain ⟨nd, hnd, hp⟩ := hE
        refine ⟨le_refl _, by omega, nd, ?_, hp⟩
        rw [hLB s.length (by omega)]
        exact hnd
      · obtain ⟨hj1, hj2, nd2, hnd2, hp⟩ := hLC j hj2
        exact ⟨by omega, hj2, nd2, hnd2, hp⟩
    · intro k nd hk hget j hj
      by_cases hkt : k < (from_dict_store d (some p) s).1.length
      · rw [hLB k hkt] at hget
        obtain ⟨hkj, hjlen, nd2, hnd2, hp⟩ := hD k nd hk hget j hj
        refine ⟨hkj, by omega, nd2, ?_, hp⟩
        rw [hLB j (by omega)]
        exact hnd2
      · exact hLD k nd (by omega) hget j hj

end

/-- **C8.**  Serialize-then-deserialize is a fidelity round trip: for any
conversation tree (branching included) whose extra attributes are plain data
with unreserved names, `from_dict (root_dict t)` rebuilds the tree exactly —
structure, child order, role, content and extra attributes; the serialised
record never contains a `parent` field; and the pointer-level rebuild sets
every child's parent pointer to the node that allocated it, for every
persisted record. -/
theorem c8_round_trip_with_parent_reconstruction (t : CTree) (d : PDict)
    (h : CTree.cleanExtras t = true) :
    PDict.from_dict_tree (CTree.to_dict_recursive t) = t
    ∧ (∀ ex : List (String × EVal),
        "parent" ∉ (serialize_extras ex).map Prod.fst)
    ∧ parent_ok (from_dict_store d none []).1 := by
  refine ⟨from_to_dict_tree t h, serialize_extras_no_parent, ?_⟩
  intro i nd hget j hj
  obtain ⟨hA, hB, hC, hD, hE⟩ := from_dict_store_spec d none []
  obtain ⟨hkj, hjlen, nd2, hnd2, hp⟩ := hD i nd (Nat.zero_le i) hget j hj
  exact ⟨nd2, hnd2, hp⟩

/-- Witness for C8 at a concrete branching tree and record. -/
theorem c8_round_trip_with_parent_reconstruction_witness :
    CTree.cleanExtras
      (.mk "user" (Content.str "hello") [("tag", EVal.str "x")]
        [.mk "assistant" (Content.str "a") [] [],
         .mk "assistant" (Content.str "b") [] []]) = true
    ∧ (PDict.from_dict_tree (CTree.to_dict_recursive
        (.mk "user" (Content.str "hello") [("tag", EVal.str "x")]
          [.mk "assistant" (Content.str "a") [] [],
           .mk "assistant" (Content.str "b") [] []]))
        = .mk "user" (Content.str "hello") [("tag", EVal.str "x")]
            [.mk "assistant" (Content.str "a") [] [],
             .mk "assistant" (Content.str "b") [] []]
      ∧ (∀ ex : List (String × EVal),
          "parent" ∉ (serialize_extras ex).map Prod.fst)
      ∧ parent_ok (from_dict_store
          (.mk "user" (Content.str "hello") [] (some
            [.mk "assistant" (Content.str "a") [] none,
             .mk "assistant" (Content.str "b") [] none])) none []).1) :=
  ⟨by simp [CTree.cleanExtras, cleanExtras_list, clean_attr, EVal.isCallable,
      startsWithUnderscore],
    c8_round_trip_with_parent_reconstruction
      (.mk "user" (Content.str "hello") [("tag", EVal.str "x")]
        [.mk "assistant" (Content.str "a") [] [],
         .mk "assistant" (Content.str "b") [] []])
      (.mk "user" (Content.str "hello") [] (some
        [.mk "assistant" (Content.str "a") [] none,
         .mk "assistant" (Content.str "b") [] none]))
      (by simp [CTree.cleanExtras, cleanExtras_list, clean_attr, EVal.isCallable,
        startsWithUnderscore])⟩

/-! ## C9: the persisted agent record never contains the API credential -/

/-- A value of the flat record built by `Bot.save`: strings, numbers, the
nested conversation record, or the tool handler's serialised record. -/
inductive SaveVal where
  | s (v : String)
  | n (v : Int)
  | dict (d : PDict)
  | record (kvs : List (String × String))

/-- The `Bot` instance attributes set by `Bot.__init__`, in `__dict__`
insertion order, as far as `save` reads them: the credential, identity
fields, generation parameters, the conversation tree, the system message and
the tool handler's `to_dict()` output (modelled as its already-serialised
key/value data).  The `mailbox` attribute is popped by `save` and carries no
persisted data; the float `temperature` is modelled as an integer (its value
is irrelevant here). -/
structure BotState where
  api_key : Option String
  name : String
  model_engine : String
  max_tokens : Int
  temperature : Int
  role : String
  role_description : String
  conversation : CTree
  system_message : String
  tool_handler_dict : List (String × String)

/-- `Bot.save` (base.py lines 525–544): take `__dict__` minus
underscore-prefixed keys, `pop('api_key')` and `pop('mailbox')`, add
`bot_class`, replace `model_engine` by the engine's value string,
`conversation` by `root_dict()` and `tool_handler` by its `to_dict()`;
non-primitive leftovers are stringified.  The result models the JSON object
written to disk, in Python dict insertion order (overwritten keys keep their
position, new keys are appended). -/
def BotState.save_data (b : BotState) : List (String × SaveVal) :=
  [("name", SaveVal.s b.name),
   ("model_engine", SaveVal.s b.model_engine),
   ("max_tokens", SaveVal.n b.max_tokens),
   ("temperature", SaveVal.n b.temperature),
   ("role", SaveVal.s b.role),
   ("role_description", SaveVal.s b.role_description),
   ("conversation", SaveVal.dict (CTree.to_dict_recursive b.conversation)),
   ("system_message", SaveVal.s b.system_message),
   ("tool_handler", SaveVal.record b.tool_handler_dict),
   ("bot_class", SaveVal.s "AnthropicBot")]

/-- **C9.**  The persisted record produced by `save` has no `api_key` field,
and two Bots differing only in their `api_key` produce identical saved
records: the output is independent of the credential. -/
theorem c9_save_excludes_credential (b : BotState) (k1 k2 : Option String) :
    "api_key" ∉ (BotState.save_data b).map Prod.fst
    ∧ BotState.save_data ⟨k1, b.name, b.model_engine, b.max_tokens,
        b.temperature, b.role, b.role_description, b.conversation,
        b.system_message, b.tool_handler_dict⟩
      = BotState.save_data ⟨k2, b.name, b.model_engine, b.max_tokens,
        b.temperature, b.role, b.role_description, b.conversation,
        b.system_message, b.tool_handler_dict⟩ := by
  constructor
  · intro h
    simp [BotState.save_data] at h
  · rfl
